import Mathlib

/-!
Verification development for the cross-database merge & deduplication engine
of the `big5_databases` repository.

The Python source is shallowly embedded: SQLAlchemy stores become explicit
`Store` values (lists of task and post rows plus fresh-id counters), sessions
become state passing, and fallible operations return `Option`/`Except`.
Each definition mirrors one function of the source
(`databases/c_db_merge.py`, `databases/db_operations.py`,
`databases/db_mgmt.py`), keeping the source's names and control flow.
-/

/-- Status enum of a collection task (`external.CollectionStatus`). -/
inductive CollectionStatus where
  | INIT
  | INVALID_CONF
  | RUNNING
  | PAUSED
  | ABORTED
  | DONE
deriving DecidableEq, Repr

/-- The slice of `PostMetadataModel` relevant here: the provenance field
`orig_db_conf: Optional[tuple[str, Optional[int]]]`
("original database_name, collection_task_id) for merges"). -/
structure PostMetadata where
  orig_db_conf : Option (String × Option Nat)
deriving DecidableEq, Repr

/-- A post row / post model (`DBPost` / `PostModel`): surrogate `id`,
unique `platform_id`, nullable FK `collection_task_id`, optional metadata. -/
structure Post where
  id : Nat
  platform_id : String
  collection_task_id : Option Nat
  metadata_content : Option PostMetadata
deriving DecidableEq, Repr

/-- A collection-task row / model (`DBCollectionTask` / `CollectionTaskModel`):
surrogate `id`, unique `task_name`, platform tag, opaque `collection_config`
(compared by deep hash, modelled as an opaque `Nat`), status and the two
nullable counters. -/
structure CollectionTask where
  id : Nat
  task_name : String
  platform : String
  collection_config : Nat
  status : CollectionStatus
  found_items : Option Int
  added_items : Option Int
deriving DecidableEq, Repr

/-- A database (one SQLite file behind a `DatabaseManager`): its task rows,
its post rows, and the next surrogate ids the engine would hand out. -/
structure Store where
  tasks : List CollectionTask
  posts : List Post
  next_task_id : Nat
  next_post_id : Nat
deriving DecidableEq, Repr

/-- Whether the store already holds a post with this `platform_id`. -/
def Store.hasPid (s : Store) (pid : String) : Bool :=
  s.posts.any (fun q => q.platform_id = pid)

/-- The `MergeStats` dataclass of `c_db_merge.py`. -/
structure MergeStats where
  total_posts_found : Nat := 0
  duplicated_posts_skipped : Nat := 0
  new_posts_added : Nat := 0
  existing_tasks_updated : Nat := 0
  new_tasks_created : Nat := 0
deriving DecidableEq, Repr

/-- Embeds `db_operations.filter_posts_with_existing_post_ids`: collect the input
posts' platform ids, query the target for existing ids limited to that set,
and return the posts whose id was not found. -/
def filter_posts_with_existing_post_ids (posts : List Post) (target : Store) :
    List Post :=
  let post_ids := posts.map (fun p => p.platform_id)
  let found_post_ids :=
    (target.posts.filter (fun q => post_ids.contains q.platform_id)).map
      (fun q => q.platform_id)
  posts.filter (fun p => ¬ found_post_ids.contains p.platform_id)

/-- Embeds `db_operations.get_tasks_with_posts`: every task of the database paired
with the posts whose `collection_task_id` is that task's id, in task order. -/
def get_tasks_with_posts (db : Store) : List (CollectionTask × List Post) :=
  db.tasks.map (fun t =>
    (t, db.posts.filter (fun p => p.collection_task_id = some t.id)))

/-- First task row with the given `task_name`
(`select(DBCollectionTask).where(task_name == ...)` followed by `.scalar()`). -/
def Store.findTaskByName (s : Store) (name : String) : Option CollectionTask :=
  s.tasks.find? (fun t => t.task_name = name)

/-- Replace the task row with the given id (ORM in-place mutation of the
fetched row). -/
def Store.replaceTask (s : Store) (t : CollectionTask) : Store :=
  { s with tasks := s.tasks.map (fun u => if u.id = t.id then t else u) }

/-- Embeds `c_db_merge.process_collection_task`: find the target task by name; if it
exists add `num_new_posts` onto its (null-coalesced) counters and promote its
status to DONE when the source task is DONE; otherwise insert a clone of the
source task (without its id) whose counters are both `num_new_posts`. -/
def process_collection_task (store : Store) (stats : MergeStats)
    (task_model : CollectionTask) (num_new_posts : Nat) :
    Store × MergeStats × CollectionTask :=
  match store.findTaskByName task_model.task_name with
  | some existing_task =>
      let updated : CollectionTask :=
        { existing_task with
          found_items := some (existing_task.found_items.getD 0 + num_new_posts),
          added_items := some (existing_task.added_items.getD 0 + num_new_posts),
          status :=
            if task_model.status = CollectionStatus.DONE then
              CollectionStatus.DONE
            else existing_task.status }
      (store.replaceTask updated,
       { stats with existing_tasks_updated := stats.existing_tasks_updated + 1 },
       updated)
  | none =>
      let new_task : CollectionTask :=
        { task_model with
          id := store.next_task_id,
          found_items := some num_new_posts,
          added_items := some num_new_posts }
      ({ store with
         tasks := store.tasks ++ [new_task],
         next_task_id := store.next_task_id + 1 },
       { stats with new_tasks_created := stats.new_tasks_created + 1 },
       new_task)

/-- The per-post body of `merge_database`'s inner loop, in source order:
first `post.collection_task_id = target_task.id`, then (when metadata is
present and truthy) `post.metadata_content.orig_db_conf =
(source_db_path, post.collection_task_id)` — reading the field that was just
overwritten. -/
def stamp_post (source_db_path : String) (target_task_id : Nat) (post : Post) :
    Post :=
  let post1 := { post with collection_task_id := some target_task_id }
  match post1.metadata_content with
  | some md =>
      { post1 with
        metadata_content :=
          some { md with
                 orig_db_conf :=
                   some (source_db_path, post1.collection_task_id) } }
  | none => post1

/-- Embeds `DBPost(**post.model_dump(exclude=\x7b"id"\x7d))` added to the session:
a fresh row with a fresh surrogate id and the model's remaining fields. -/
def Store.insertPost (s : Store) (p : Post) : Store :=
  { s with
    posts := s.posts ++ [{ p with id := s.next_post_id }],
    next_post_id := s.next_post_id + 1 }

/-- Session state threaded through `merge_database`: the target store, the
stats, the number of posts flushed to the target but not yet committed
(posts staged in earlier iterations leave `session.new` through the
autoflush triggered by each iteration's SELECTs, yet stay uncommitted), and
the sizes of the commit boundaries issued so far. -/
structure MergeSession where
  store : Store
  stats : MergeStats
  pending : Nat
  commits : List Nat
deriving DecidableEq, Repr

/-- One iteration of `merge_database`'s task loop: count the posts, dedup
them against the target, create-or-update the target task, stage each new
post (reparented and stamped), and check
`if len(target_session.new) >= batch_size: target_session.commit()`.
The session is created with SQLAlchemy defaults, so the SELECTs issued by
this iteration's dedup filter and task lookup autoflush the session,
emptying `session.new` of everything staged in earlier iterations (the new
task row of `process_collection_task` is flushed explicitly); at the check,
`len(target_session.new)` is therefore exactly the number of posts this
task staged, while the commit itself covers every post flushed since the
previous commit. -/
def merge_task_step (source_db_path : String) (s : MergeSession)
    (tp : CollectionTask × List Post) : MergeSession :=
  let task_model := tp.1
  let posts_models := tp.2
  let stats1 :=
    { s.stats with
      total_posts_found := s.stats.total_posts_found + posts_models.length }
  let new_posts := filter_posts_with_existing_post_ids posts_models s.store
  let stats2 :=
    { stats1 with
      duplicated_posts_skipped :=
        stats1.duplicated_posts_skipped +
          (posts_models.length - new_posts.length),
      new_posts_added := stats1.new_posts_added + new_posts.length }
  let r := process_collection_task s.store stats2 task_model new_posts.length
  let store2 :=
    new_posts.foldl
      (fun st p => st.insertPost (stamp_post source_db_path r.2.2.id p)) r.1
  let pending1 := s.pending + new_posts.length
  if 500 ≤ new_posts.length then
    { store := store2, stats := r.2.1, pending := 0,
      commits := s.commits ++ [pending1] }
  else
    { store := store2, stats := r.2.1, pending := pending1,
      commits := s.commits }

/-- Embeds `c_db_merge.merge_database`: fold the task loop over the source's
`(task, posts)` pairs starting from the target store, then let the session
context manager commit whatever is still pending on exit. -/
def merge_database (source_db_path : String) (source target : Store) :
    MergeSession :=
  let final :=
    (get_tasks_with_posts source).foldl (merge_task_step source_db_path)
      { store := target, stats := {}, pending := 0, commits := [] }
  { final with commits := final.commits ++ [final.pending], pending := 0 }

/-- Embeds `DatabaseManager._submit_posts`: add the whole batch in one session and
commit; the unique constraint on `platform_id` raises an integrity error
(modelled as `Except.error`) when a submitted id collides with a stored one
or with another id in the batch, rolling the whole batch back. -/
def _submit_posts (db : Store) (posts : List Post) : Except Unit Store :=
  if (posts.any fun p => db.hasPid p.platform_id) ∨
      ¬ (posts.map fun p => p.platform_id).Nodup then
    Except.error ()
  else
    Except.ok (posts.foldl Store.insertPost db)

/-- Embeds `DatabaseManager.safe_submit_posts`: try to submit; on an integrity
error, re-filter the original batch against the store in a fresh session and
return the reduced list — every branch of the `while True` loop returns, so
no second submission is attempted. The unchanged store is returned alongside
the list the function returns. -/
def safe_submit_posts (db : Store) (posts : List Post) : Store × List Post :=
  match _submit_posts db posts with
  | Except.ok db1 => (db1, posts)
  | Except.error _ =>
      let submit_posts := filter_posts_with_existing_post_ids posts db
      (db, submit_posts)

/-- The slice of `ClientTaskConfig` used by
`DatabaseManager.add_db_collection_tasks`. The source field `group_prefix`
is rendered `groupPrefix`. -/
structure ClientTaskConfig where
  task_name : String
  platform : String
  collection_config : Nat
  transient : Bool
  status : CollectionStatus
  overwrite : Bool
  keep_old_posts : Bool
  force_new_index : Bool
  groupPrefix : String
deriving DecidableEq, Repr

/-- Whether `pre` is a prefix of `s`, on explicit characters. -/
def strStartsWith (pre s : String) : Bool :=
  s.data.take pre.data.length = pre.data

/-- Python `str.removeprefix`. -/
def dropPrefixStr (pre s : String) : String :=
  if strStartsWith pre s then s.drop pre.length else s

/-- The value of a decimal digit character. -/
def digitVal? (c : Char) : Option Nat :=
  if 48 ≤ c.toNat ∧ c.toNat ≤ 57 then some (c.toNat - 48) else none

/-- The value of a non-empty all-digit character list. -/
def digitsVal? (cs : List Char) : Option Nat :=
  match cs with
  | [] => none
  | _ => cs.foldlM (fun acc c => (digitVal? c).map (fun d => acc * 10 + d)) 0

/-- Python `int(str)` on canonical decimal forms: an optional minus sign
followed by digits (whitespace, "+" and digit-group underscores are not
modelled; the theorems below only rely on canonical digit suffixes). -/
def pyToInt? (s : String) : Option Int :=
  match s.data with
  | '-' :: rest => (digitsVal? rest).map (fun n => -(n : Int))
  | _ => (digitsVal? s.data).map (fun n => (n : Int))

/-- The ASCII-lowercased code of a character (SQLite `LIKE` compares
case-insensitively for ASCII only). -/
def lowerCode (c : Char) : Nat :=
  if 65 ≤ c.toNat ∧ c.toNat ≤ 90 then c.toNat + 32 else c.toNat

/-- SQLite `LIKE` matching (no ESCAPE clause): `%` matches any character
run, `_` matches exactly one arbitrary character — including every `_`
inside the group prefix itself — and ordinary characters compare
ASCII-case-insensitively. The fuel argument only bounds the recursion: each
call shrinks `pat.length + s.length`, so a start fuel above that sum is
never exhausted. -/
def likeMatchFuel : Nat → List Char → List Char → Bool
  | 0, _, _ => false
  | fuel + 1, pat, s =>
    match pat, s with
    | [], [] => true
    | [], _ :: _ => false
    | '%' :: ps, s =>
        likeMatchFuel fuel ps s ||
          (match s with
           | [] => false
           | _ :: ss => likeMatchFuel fuel ('%' :: ps) ss)
    | '_' :: _, [] => false
    | '_' :: ps, _ :: ss => likeMatchFuel fuel ps ss
    | _ :: _, [] => false
    | p :: ps, c :: ss =>
        decide (lowerCode p = lowerCode c) && likeMatchFuel fuel ps ss

/-- SQL `LIKE '{gp}_%'` as issued by `add_db_collection_tasks`: the pattern
is the group prefix followed by one `_` wildcard and `%`. -/
def likeGroupMatch (gp : String) (name : String) : Bool :=
  likeMatchFuel (gp.data.length + name.data.length + 3)
    (gp.data ++ ['_', '%']) name.data

/-- The group-index query of `add_db_collection_tasks`: select the task
names matching `LIKE '{gp}_%'` and parse
`int(tn.removeprefix(f"{gp}_"))` for each; `none` models the `ValueError`
that `int` raises on a non-numeric remainder. -/
def group_existing_indices (taskNames : List String) (gp : String) :
    Option (List Int) :=
  (taskNames.filter (likeGroupMatch gp)).mapM
    (fun tn => pyToInt? (dropPrefixStr (gp ++ "_") tn))

/-- Embeds `for next_idx in range(len(existing_indices) + 1): if next_idx not in
existing_indices: ... break` — the first index in `0..len(set)` not already
used (`existing_indices` is a Python set, so its size is the number of
distinct values). -/
def find_next_index (existing_indices : List Int) : Option Nat :=
  (List.range (existing_indices.dedup.length + 1)).find?
    (fun (next_idx : Nat) => ! existing_indices.contains (next_idx : Int))

/-- Lookup in the `group_prefix_existing_tasks` cache. -/
def cacheGet (cache : List (String × List Int)) (k : String) :
    Option (List Int) :=
  (cache.find? (fun e => e.1 = k)).map (fun e => e.2)

/-- Store into the `group_prefix_existing_tasks` cache. -/
def cacheSet (cache : List (String × List Int)) (k : String) (v : List Int) :
    List (String × List Int) :=
  if (cache.find? (fun e => e.1 = k)).isSome then
    cache.map (fun e => if e.1 = k then (k, v) else e)
  else
    cache ++ [(k, v)]

/-- State threaded through `add_db_collection_tasks`' conflict loop:
the per-group used-index cache, the surviving candidates (with renames
applied in place), the `(task_name, keep_posts)` pairs marked for overwrite,
and the accumulated `new_tasks_names`. -/
structure ReconcileState where
  cache : List (String × List Int)
  tasks : List ClientTaskConfig
  to_overwrite : List (String × Bool)
  new_tasks_names : List String
deriving DecidableEq, Repr

/-- One iteration of the conflict loop of `add_db_collection_tasks` for
candidate `t`: overwrite → record for deletion and keep; `force_new_index` →
fetch (or reuse) the group's used indices, rename the candidate to
`{groupPrefix}_{next_idx}` for the first free index and record the index as
used; otherwise → skip (drop) the candidate. Candidates whose name is not in
`existing_names` pass through unchanged. `none` propagates the `ValueError`
of a failed index parse. -/
def reconcile_candidate (dbNames : List String) (existing_names : List String)
    (st : ReconcileState) (t : ClientTaskConfig) : Option ReconcileState :=
  if existing_names.contains t.task_name then
    if t.overwrite then
      some { st with
             to_overwrite := st.to_overwrite ++ [(t.task_name, t.keep_old_posts)],
             tasks := st.tasks ++ [t] }
    else if t.force_new_index then
      let fetched : Option (List Int) :=
        match cacheGet st.cache t.groupPrefix with
        | none => group_existing_indices dbNames t.groupPrefix
        | some l =>
            if l.isEmpty then group_existing_indices dbNames t.groupPrefix
            else some l
      match fetched with
      | none => none
      | some existing_indices =>
          match find_next_index existing_indices with
          | some next_idx =>
              let new_t_name := t.groupPrefix ++ "_" ++ toString next_idx
              some { st with
                     cache := cacheSet st.cache t.groupPrefix
                       (existing_indices ++ [(next_idx : Int)]),
                     tasks := st.tasks ++ [{ t with task_name := new_t_name }],
                     new_tasks_names := st.new_tasks_names ++ [new_t_name] }
          | none =>
              some { st with
                     cache := cacheSet st.cache t.groupPrefix existing_indices,
                     tasks := st.tasks ++ [t] }
    else
      some st
  else
    some { st with tasks := st.tasks ++ [t] }

/-- Embeds `DatabaseManager.check_task_names_exists`: the stored task names that
appear in the given list. -/
def check_task_names_exists (db : Store) (task_names : List String) :
    List String :=
  (db.tasks.map (fun t => t.task_name)).filter (fun n => task_names.contains n)

/-- Embeds `DatabaseManager.delete_tasks`: null the task FK of posts belonging to
tasks whose posts are kept, then delete the task rows; with
`pragma foreign_keys=ON` the `ondelete="CASCADE"` clause removes the posts
still referencing a deleted task. -/
def delete_tasks (db : Store) (task_names_keep_info : List (String × Bool)) :
    Store :=
  let keep_posts_of_tasks :=
    (task_names_keep_info.filter (fun ti => ti.2)).map (fun ti => ti.1)
  let keep_posts_ids :=
    (db.tasks.filter (fun t => keep_posts_of_tasks.contains t.task_name)).map
      (fun t => t.id)
  let posts1 := db.posts.map (fun p =>
    if (p.collection_task_id.map (fun i => keep_posts_ids.contains i)).getD
        false then
      { p with collection_task_id := none }
    else p)
  let task_names := task_names_keep_info.map (fun ti => ti.1)
  let deleted_ids :=
    (db.tasks.filter (fun t => task_names.contains t.task_name)).map
      (fun t => t.id)
  { db with
    tasks := db.tasks.filter (fun t => ¬ task_names.contains t.task_name),
    posts := posts1.filter (fun p =>
      ¬ (p.collection_task_id.map (fun i => deleted_ids.contains i)).getD
          false) }

/-- Embeds `DatabaseManager.add_db_collection_tasks`: compute the colliding names,
pre-seed `new_tasks_names` with the non-colliding candidates, run the
conflict loop, delete the tasks marked for overwrite, and insert every
surviving candidate as a fresh task row; returns the updated store and
`new_tasks_names`. `none` models the uncaught `ValueError` of the index
parse. -/
def add_db_collection_tasks (db : Store)
    (collection_tasks : List ClientTaskConfig) :
    Option (Store × List String) :=
  let task_names := collection_tasks.map (fun t => t.task_name)
  let existing_names := check_task_names_exists db task_names
  let init : ReconcileState :=
    { cache := [],
      tasks := [],
      to_overwrite := [],
      new_tasks_names :=
        (collection_tasks.filter
          (fun t => ¬ existing_names.contains t.task_name)).map
          (fun t => t.task_name) }
  match collection_tasks.foldlM
      (reconcile_candidate (db.tasks.map (fun t => t.task_name))
        existing_names) init with
  | none => none
  | some st =>
      let db1 :=
        if st.to_overwrite.isEmpty then db else delete_tasks db st.to_overwrite
      let db2 := st.tasks.foldl (fun d task =>
        { d with
          tasks := d.tasks ++
            [{ id := d.next_task_id,
               task_name := task.task_name,
               platform := task.platform,
               collection_config := task.collection_config,
               status := task.status,
               found_items := none,
               added_items := none }],
          next_task_id := d.next_task_id + 1 }) db1
      some (db2, st.new_tasks_names)

/-- The nested `update_task(from_db, to_db, from_task_model)` of
`check_for_conflicts`: load the DONE side's posts for the task, collect
their platform ids, look up the target task object and the already-existing
colliding posts — and then return, performing no write: both sessions close
without an insert or update. -/
def update_task (from_db to_db : Store) (from_task_model : CollectionTask) :
    Store :=
  let new_posts :=
    from_db.posts.filter
      (fun p => p.collection_task_id = some from_task_model.id)
  let new_posts_pids := new_posts.map (fun p => p.platform_id)
  let target_obj :=
    to_db.tasks.find? (fun t => t.task_name = from_task_model.task_name)
  let existing_posts :=
    to_db.posts.filter (fun p => new_posts_pids.contains p.platform_id)
  to_db

/-- The counters and lists accumulated by `check_for_conflicts` (all of them
local variables that the source only prints), plus the state of the target
store after the `update_task` invocations. `diff_both_other_status` is the
counter the source initialises and prints but never increments. -/
structure ConflictCounts where
  num_match : Nat
  diff_status : Nat
  diff_config : Nat
  diff_both_init : Nat
  diff_both_done : Nat
  diff_both_other_status : Nat
  diff_fount_posts : Nat
  source_done_ : List CollectionTask
  target_done_ : List CollectionTask
  diff_both_other_status_ : List (String × CollectionStatus × CollectionStatus)
  target_store_after : Store
deriving DecidableEq, Repr

/-- The classification loop of `check_for_conflicts` over the shared task
names (`existing`): equal config hashes split by status into
both-init / both-done (with a found-items mismatch sub-count) / both-other,
or a status mismatch (with the DONE-vs-INIT catch-up call to `update_task`);
different hashes count as a config conflict. The Python `for t in existing`
iterates a set in unspecified order; here the shared names are visited in
deduplicated source order, which fixes only the order of the three lists. -/
def check_for_conflicts_run (source_db target_db : Store) : ConflictCounts :=
  let source_tasks := (source_db.tasks.map (fun t => t.task_name)).dedup
  let target_tasks := (target_db.tasks.map (fun t => t.task_name)).dedup
  let existing := source_tasks.filter (fun n => target_tasks.contains n)
  let f_source_tasks :=
    source_db.tasks.filter (fun t => existing.contains t.task_name)
  let f_target_tasks :=
    target_db.tasks.filter (fun t => existing.contains t.task_name)
  let src_map := fun n =>
    (f_source_tasks.reverse).find? (fun t => t.task_name = n)
  let tgt_map := fun n =>
    (f_target_tasks.reverse).find? (fun t => t.task_name = n)
  let init : ConflictCounts :=
    { num_match := existing.length,
      diff_status := 0, diff_config := 0, diff_both_init := 0,
      diff_both_done := 0, diff_both_other_status := 0, diff_fount_posts := 0,
      source_done_ := [], target_done_ := [], diff_both_other_status_ := [],
      target_store_after := target_db }
  existing.foldl (fun acc t =>
    match src_map t, tgt_map t with
    | some src, some tgt =>
        if src.collection_config = tgt.collection_config then
          if src.status = tgt.status then
            if src.status = CollectionStatus.INIT then
              { acc with diff_both_init := acc.diff_both_init + 1 }
            else if src.status = CollectionStatus.DONE then
              if src.found_items ≠ tgt.found_items then
                { acc with diff_both_done := acc.diff_both_done + 1,
                           diff_fount_posts := acc.diff_fount_posts + 1 }
              else
                { acc with diff_both_done := acc.diff_both_done + 1 }
            else
              { acc with
                diff_both_other_status_ :=
                  acc.diff_both_other_status_ ++
                    [(src.task_name, src.status, tgt.status)] }
          else
            let acc1 := { acc with diff_status := acc.diff_status + 1 }
            if src.status = CollectionStatus.INIT ∧
                tgt.status = CollectionStatus.DONE then
              { acc1 with target_done_ := acc1.target_done_ ++ [tgt] }
            else if src.status = CollectionStatus.DONE ∧
                tgt.status = CollectionStatus.INIT then
              { acc1 with
                source_done_ := acc1.source_done_ ++ [src],
                target_store_after :=
                  update_task source_db acc1.target_store_after src }
            else
              acc1
        else
          { acc with diff_config := acc.diff_config + 1 }
    | _, _ => acc) init

/-- Embeds `c_db_merge.check_for_conflicts`: runs the classification, prints every
counter and list, and falls off the end of the function — despite the
`-> Dict[str, Any]` annotation and the docstring, its return value is
Python's `None`. -/
def check_for_conflicts (source target : Store) :
    Option (List (String × Int)) :=
  let r := check_for_conflicts_run source target
  none


/-- An empty store (fresh SQLite database). -/
def emptyStore : Store := { tasks := [], posts := [], next_task_id := 1, next_post_id := 1 }

/-- Two posts sharing one platform id, for exercising the deduplicator. -/
def dupA1 : Post := { id := 1, platform_id := "a", collection_task_id := none, metadata_content := none }

/-- Second post with the same platform id as `dupA1`. -/
def dupA2 : Post := { id := 2, platform_id := "a", collection_task_id := none, metadata_content := none }


/-- A target task named "t", not DONE, with non-null counters. -/
def taskT0 : CollectionTask :=
  { id := 1, task_name := "t", platform := "yt", collection_config := 0,
    status := CollectionStatus.INIT, found_items := some 3, added_items := some 2 }

/-- A store holding only `taskT0`. -/
def storeT0 : Store := { tasks := [taskT0], posts := [], next_task_id := 2, next_post_id := 1 }

/-- A DONE source task with the same name as `taskT0`. -/
def taskSrcDone : CollectionTask :=
  { id := 9, task_name := "t", platform := "yt", collection_config := 0,
    status := CollectionStatus.DONE, found_items := some 5, added_items := some 5 }


/-- A store already holding a post with platform id "a". -/
def c5db : Store :=
  { tasks := [],
    posts := [{ id := 1, platform_id := "a", collection_task_id := none,
                metadata_content := none }],
    next_task_id := 1, next_post_id := 2 }

/-- A submitted post whose platform id "a" collides with `c5db`. -/
def c5postA : Post :=
  { id := 10, platform_id := "a", collection_task_id := none, metadata_content := none }

/-- A submitted post whose platform id "b" is new to `c5db`. -/
def c5postB : Post :=
  { id := 11, platform_id := "b", collection_task_id := none, metadata_content := none }

/-- A DONE source task with id 7 for the provenance-stamping run. -/
def c6srcTask : CollectionTask :=
  { id := 7, task_name := "t", platform := "yt", collection_config := 0,
    status := CollectionStatus.DONE, found_items := none, added_items := none }

/-- A source post owned by task 7, carrying (empty) metadata. -/
def c6srcPost : Post :=
  { id := 3, platform_id := "x", collection_task_id := some 7,
    metadata_content := some { orig_db_conf := none } }

/-- A source store with one task (id 7) owning one post. -/
def c6source : Store :=
  { tasks := [c6srcTask], posts := [c6srcPost], next_task_id := 8, next_post_id := 4 }

/-- A DONE source task named "t1" owning one post, for the conflict
analyzer's catch-up path. -/
def c7srcTask : CollectionTask :=
  { id := 1, task_name := "t1", platform := "yt", collection_config := 0,
    status := CollectionStatus.DONE, found_items := some 1, added_items := some 1 }

/-- The post of `c7srcTask`. -/
def c7srcPost : Post :=
  { id := 1, platform_id := "p1", collection_task_id := some 1, metadata_content := none }

/-- The source store for the catch-up run. -/
def c7source : Store :=
  { tasks := [c7srcTask], posts := [c7srcPost], next_task_id := 2, next_post_id := 2 }

/-- The target store: same task name "t1", same config, status INIT, no
posts. -/
def c7target : Store :=
  { tasks := [{ id := 5, task_name := "t1", platform := "yt",
                collection_config := 0, status := CollectionStatus.INIT,
                found_items := none, added_items := none }],
    posts := [], next_task_id := 6, next_post_id := 1 }


/-- A DONE source task with id 1 owning 501 posts. -/
def c9task : CollectionTask :=
  { id := 1, task_name := "t", platform := "yt", collection_config := 0,
    status := CollectionStatus.DONE, found_items := none, added_items := none }

/-- 501 distinct posts owned by task 1. -/
def c9posts : List Post :=
  (List.range 501).map (fun i =>
    { id := i + 1, platform_id := "p" ++ toString i,
      collection_task_id := some 1, metadata_content := none })

/-- A source store whose single task owns 501 posts. -/
def c9source : Store :=
  { tasks := [c9task], posts := c9posts, next_task_id := 2, next_post_id := 502 }

/-- Two DONE tasks, the first owning 499 posts and the second 2 posts. -/
def c9tasksTwo : List CollectionTask :=
  [{ id := 1, task_name := "t1", platform := "yt", collection_config := 0,
     status := CollectionStatus.DONE, found_items := none, added_items := none },
   { id := 2, task_name := "t2", platform := "yt", collection_config := 0,
     status := CollectionStatus.DONE, found_items := none, added_items := none }]

/-- 501 distinct posts, the first 499 owned by task 1, the last 2 by task 2. -/
def c9postsTwo : List Post :=
  (List.range 501).map (fun i =>
    { id := i + 1, platform_id := "q" ++ toString i,
      collection_task_id := some (if i < 499 then 1 else 2),
      metadata_content := none })

/-- A source store with a 499-post task followed by a 2-post task. -/
def c9source2 : Store :=
  { tasks := c9tasksTwo, posts := c9postsTwo,
    next_task_id := 3, next_post_id := 502 }


/-- A store whose task names are `grp_0` and `grp_2` (a gap at index 1). -/
def c4db : Store :=
  { tasks := [{ id := 1, task_name := "grp_0", platform := "yt",
                collection_config := 0, status := CollectionStatus.INIT,
                found_items := none, added_items := none },
              { id := 2, task_name := "grp_2", platform := "yt",
                collection_config := 0, status := CollectionStatus.INIT,
                found_items := none, added_items := none }],
    posts := [], next_task_id := 3, next_post_id := 1 }

/-- A `force_new_index` candidate colliding with `grp_0`. -/
def c4cand : ClientTaskConfig :=
  { task_name := "grp_0", platform := "yt", collection_config := 0,
    transient := false, status := CollectionStatus.INIT, overwrite := false,
    keep_old_posts := false, force_new_index := true, groupPrefix := "grp" }

theorem hasPid_iff (s : Store) (x : String) :
    s.hasPid x = true ↔ ∃ q ∈ s.posts, q.platform_id = x := by
  simp [Store.hasPid, List.any_eq_true]

theorem contains_found_iff (posts : List Post) (st : Store) (p : Post)
    (hp : p ∈ posts) :
    ((st.posts.filter (fun q =>
        (posts.map (fun r => r.platform_id)).contains q.platform_id)).map
      (fun q => q.platform_id)).contains p.platform_id =
      st.hasPid p.platform_id := by
  rcases hhh : st.hasPid p.platform_id with _ | _
  · rw [Bool.eq_false_iff] at hhh ⊢
    intro hc
    simp only [List.elem_iff, List.mem_map, List.mem_filter] at hc
    obtain ⟨q, ⟨hq, _⟩, hqx⟩ := hc
    exact hhh ((hasPid_iff st p.platform_id).mpr ⟨q, hq, hqx⟩)
  · rw [hasPid_iff] at hhh
    obtain ⟨q, hq, hqx⟩ := hhh
    simp only [List.elem_iff, List.mem_map, List.mem_filter]
    exact ⟨q, ⟨hq, ⟨p, hp, hqx.symm⟩⟩, hqx⟩

theorem filter_posts_eq_filter (posts : List Post) (st : Store) :
    filter_posts_with_existing_post_ids posts st =
      posts.filter (fun p => st.hasPid p.platform_id = false) := by
  unfold filter_posts_with_existing_post_ids
  apply List.filter_congr
  intro p hp
  simp only [decide_eq_decide]
  rw [contains_found_iff posts st p hp]
  constructor
  · intro h
    rw [Bool.eq_false_iff]
    exact h
  · intro h
    rw [h]
    simp

theorem mem_filter_posts (posts : List Post) (st : Store) (p : Post) :
    p ∈ filter_posts_with_existing_post_ids posts st ↔
      p ∈ posts ∧ st.hasPid p.platform_id = false := by
  rw [filter_posts_eq_filter]
  simp [List.mem_filter]

/-- C10: the deduplicator never deduplicates within its own input — it
returns exactly the sub-list, in input order, of posts whose `platform_id`
is not already stored in the target; in particular two input posts sharing a
platform id that is absent from the target are both returned. -/
theorem deduplicator_input_order_sublist (posts : List Post) (st : Store) :
    filter_posts_with_existing_post_ids posts st =
      posts.filter (fun p => st.hasPid p.platform_id = false) ∧
    (∀ p q : Post, p ∈ posts → q ∈ posts →
      st.hasPid p.platform_id = false → st.hasPid q.platform_id = false →
      p ∈ filter_posts_with_existing_post_ids posts st ∧
      q ∈ filter_posts_with_existing_post_ids posts st) := by
  refine ⟨filter_posts_eq_filter posts st, ?_⟩
  intro p q hp hq hpn hqn
  exact ⟨(mem_filter_posts posts st p).mpr ⟨hp, hpn⟩,
         (mem_filter_posts posts st q).mpr ⟨hq, hqn⟩⟩

/-- Witness for C10: two posts with the same platform id `"a"`, absent from
the empty store, are both kept by the deduplicator. -/
theorem deduplicator_input_order_sublist_witness :
    dupA1 ∈ filter_posts_with_existing_post_ids [dupA1, dupA2] emptyStore ∧
    dupA2 ∈ filter_posts_with_existing_post_ids [dupA1, dupA2] emptyStore :=
  (deduplicator_input_order_sublist [dupA1, dupA2] emptyStore).2 dupA1 dupA2
    (by decide) (by decide) (by decide) (by decide)

theorem find?_replace (tasks : List CollectionTask) (name : String)
    (t0 upd : CollectionTask)
    (h : tasks.find? (fun t => t.task_name = name) = some t0)
    (hname : upd.task_name = t0.task_name) (hid : upd.id = t0.id) :
    (tasks.map (fun u => if u.id = t0.id then upd else u)).find?
      (fun t => t.task_name = name) = some upd := by
  have ht0 : t0.task_name = name := by
    have := List.find?_some h
    simpa using this
  induction tasks with
  | nil => simp at h
  | cons a l ih =>
    by_cases ha : a.task_name = name
    · rw [List.find?_cons_of_pos _ (by simpa using ha)] at h
      have haeq : a = t0 := by simpa using h
      subst haeq
      simp only [List.map_cons, if_pos rfl]
      exact List.find?_cons_of_pos _ (by simp [hname, ht0])
    · rw [List.find?_cons_of_neg _ (by simpa using ha)] at h
      by_cases haid : a.id = t0.id
      · simp only [List.map_cons, if_pos haid]
        exact List.find?_cons_of_pos _ (by simp [hname, ht0])
      · simp only [List.map_cons, if_neg haid]
        rw [List.find?_cons_of_neg _ (by simpa using ha)]
        exact ih h

/-- C3: merging into an existing target task of the same name: a DONE source
promotes the target to DONE; a non-DONE source leaves the target's status
unchanged; in particular a DONE target is never demoted. -/
theorem merge_status_monotonicity (store : Store) (stats : MergeStats)
    (task_model : CollectionTask) (n : Nat) (t0 : CollectionTask)
    (h : store.findTaskByName task_model.task_name = some t0) :
    ∃ t1 : CollectionTask,
      (process_collection_task store stats task_model n).1.findTaskByName
        task_model.task_name = some t1 ∧
      (task_model.status = CollectionStatus.DONE →
        t1.status = CollectionStatus.DONE) ∧
      (task_model.status ≠ CollectionStatus.DONE → t1.status = t0.status) ∧
      (t0.status = CollectionStatus.DONE →
        t1.status = CollectionStatus.DONE) := by
  simp only [process_collection_task, h]
  refine ⟨{ t0 with
            status := if task_model.status = CollectionStatus.DONE then
                CollectionStatus.DONE
              else t0.status,
            found_items := some (t0.found_items.getD 0 + n),
            added_items := some (t0.added_items.getD 0 + n) },
          ?_, ?_, ?_, ?_⟩
  · exact find?_replace store.tasks task_model.task_name t0 _ h (by simp) (by simp)
  · intro hd
    simp [hd]
  · intro hd
    simp [hd]
  · intro hd
    by_cases hs : task_model.status = CollectionStatus.DONE <;> simp [hs, hd]

/-- Witness for C3: a DONE source task named "t" merged onto the INIT target
task `taskT0` yields a target task that is DONE. -/
theorem merge_status_monotonicity_witness :
    storeT0.findTaskByName "t" = some taskT0 ∧
    ∃ t1 : CollectionTask,
      (process_collection_task storeT0 {} taskSrcDone 4).1.findTaskByName
        "t" = some t1 ∧
      (taskSrcDone.status = CollectionStatus.DONE →
        t1.status = CollectionStatus.DONE) ∧
      (taskSrcDone.status ≠ CollectionStatus.DONE → t1.status = taskT0.status) ∧
      (taskT0.status = CollectionStatus.DONE →
        t1.status = CollectionStatus.DONE) :=
  ⟨by decide, merge_status_monotonicity storeT0 {} taskSrcDone 4 taskT0 (by decide)⟩

theorem find?_append_singleton {α : Type} (l : List α) (p : α → Bool) (a : α)
    (h : l.find? p = none) (ha : p a = true) : (l ++ [a]).find? p = some a := by
  rw [List.find?_append, h]
  simp [List.find?, ha]

theorem foldl_insert_tasks (f : Post → Post) (l : List Post) (st : Store) :
    (l.foldl (fun s p => s.insertPost (f p)) st).tasks = st.tasks := by
  induction l generalizing st with
  | nil => rfl
  | cons a l ih => rw [List.foldl_cons, ih]; rfl

theorem process_store_indep (st : Store) (s1 s2 : MergeStats)
    (tm : CollectionTask) (n : Nat) :
    (process_collection_task st s1 tm n).1 = (process_collection_task st s2 tm n).1 := by
  unfold process_collection_task
  cases st.findTaskByName tm.task_name <;> simp

theorem merge_task_step_store_tasks (path : String) (s : MergeSession)
    (tp : CollectionTask × List Post) :
    (merge_task_step path s tp).store.tasks =
      (process_collection_task s.store {} tp.1
        (filter_posts_with_existing_post_ids tp.2 s.store).length).1.tasks := by
  simp only [merge_task_step]
  split
  · rw [foldl_insert_tasks, process_store_indep s.store _ {}]
  · rw [foldl_insert_tasks, process_store_indep s.store _ {}]

/-- C2: for a task merged by the merge engine's per-task step, an existing
target task of the same name gets its (null-coalesced) `found_items` and
`added_items` each increased by exactly the number of deduplicated new posts,
and never decreased; when no target task exists, a new one is created whose
two counters both equal that number. -/
theorem merge_counter_correctness (path : String) (s : MergeSession)
    (task_model : CollectionTask) (posts : List Post) :
    (∀ t0 : CollectionTask,
      s.store.findTaskByName task_model.task_name = some t0 →
      ∃ t1 : CollectionTask,
        (merge_task_step path s (task_model, posts)).store.findTaskByName
          task_model.task_name = some t1 ∧
        t1.found_items = some (t0.found_items.getD 0 +
          (filter_posts_with_existing_post_ids posts s.store).length) ∧
        t1.added_items = some (t0.added_items.getD 0 +
          (filter_posts_with_existing_post_ids posts s.store).length) ∧
        t0.found_items.getD 0 ≤ t1.found_items.getD 0 ∧
        t0.added_items.getD 0 ≤ t1.added_items.getD 0) ∧
    (s.store.findTaskByName task_model.task_name = none →
      ∃ t1 : CollectionTask,
        (merge_task_step path s (task_model, posts)).store.findTaskByName
          task_model.task_name = some t1 ∧
        t1.found_items =
          some ((filter_posts_with_existing_post_ids posts s.store).length) ∧
        t1.added_items =
          some ((filter_posts_with_existing_post_ids posts s.store).length)) := by
  have htasks := merge_task_step_store_tasks path s (task_model, posts)
  constructor
  · intro t0 h
    refine ⟨{ t0 with
              status := if task_model.status = CollectionStatus.DONE then
                  CollectionStatus.DONE
                else t0.status,
              found_items := some (t0.found_items.getD 0 +
                (filter_posts_with_existing_post_ids posts s.store).length),
              added_items := some (t0.added_items.getD 0 +
                (filter_posts_with_existing_post_ids posts s.store).length) },
            ?_, rfl, rfl, ?_, ?_⟩
    · show (merge_task_step path s (task_model, posts)).store.tasks.find? _ = _
      rw [htasks]
      simp only [process_collection_task, h]
      exact find?_replace s.store.tasks task_model.task_name t0 _ h
        (by simp) (by simp)
    · simp only [Option.getD_some]
      exact le_add_of_nonneg_right (Int.natCast_nonneg _)
    · simp only [Option.getD_some]
      exact le_add_of_nonneg_right (Int.natCast_nonneg _)
  · intro h
    refine ⟨{ task_model with
              id := s.store.next_task_id,
              found_items :=
                some ((filter_posts_with_existing_post_ids posts s.store).length),
              added_items :=
                some ((filter_posts_with_existing_post_ids posts s.store).length) },
            ?_, rfl, rfl⟩
    show (merge_task_step path s (task_model, posts)).store.tasks.find? _ = _
    rw [htasks]
    simp only [process_collection_task, h]
    exact find?_append_singleton s.store.tasks _ _ h (by simp)

/-- Witness for C2: merging the DONE source task "t" with one genuinely new
post onto `storeT0` (whose task "t" has found_items 3, added_items 2) yields
counters 3+1 and 2+1. -/
theorem merge_counter_correctness_witness :
    storeT0.findTaskByName "t" = some taskT0 ∧
    ∃ t1 : CollectionTask,
      (merge_task_step "src"
        { store := storeT0, stats := {}, pending := 0, commits := [] }
        (taskSrcDone, [dupA1])).store.findTaskByName taskSrcDone.task_name =
          some t1 ∧
      t1.found_items = some (taskT0.found_items.getD 0 +
        (filter_posts_with_existing_post_ids [dupA1] storeT0).length) ∧
      t1.added_items = some (taskT0.added_items.getD 0 +
        (filter_posts_with_existing_post_ids [dupA1] storeT0).length) ∧
      taskT0.found_items.getD 0 ≤ t1.found_items.getD 0 ∧
      taskT0.added_items.getD 0 ≤ t1.added_items.getD 0 :=
  ⟨by decide,
   (merge_counter_correctness "src"
     { store := storeT0, stats := {}, pending := 0, commits := [] }
     taskSrcDone [dupA1]).1 taskT0 (by decide)⟩

/-- C5 (divergence witness): submitting the batch `[a, b]` against a store
already holding platform id "a" raises the integrity error; the code then
re-filters and returns the reduced batch `[b]` — but never resubmits it, so
the store is returned unchanged and the post with platform id "b" is not
stored. -/
theorem safe_submit_posts_no_resubmit :
    safe_submit_posts c5db [c5postA, c5postB] = (c5db, [c5postB]) ∧
    c5db.hasPid "b" = false := by decide

/-- C6 (divergence witness): merging `c6source` (task id 7 owning post "x")
into an empty target creates target task id 1 and stores post "x" with
`orig_db_conf = (source path, target task id 1)` — the post's pre-merge
`collection_task_id` was 7, so the stamped task id is the target's, not the
original. -/
theorem merge_provenance_stamps_target_id :
    (merge_database "src.sqlite" c6source emptyStore).store.posts =
      [{ id := 1, platform_id := "x", collection_task_id := some 1,
         metadata_content :=
           some { orig_db_conf := some ("src.sqlite", some 1) } }] ∧
    c6srcPost.collection_task_id = some 7 ∧ (1 : Nat) ≠ 7 := by decide

/-- C7 (divergence witness): comparing `c7source` (task "t1" DONE with post
"p1") against `c7target` (task "t1" INIT, same config, no posts) identifies
the catch-up candidate and invokes `update_task`, yet the target store is
returned unchanged: post "p1" still does not exist on the INIT side. -/
theorem check_for_conflicts_no_catch_up :
    (check_for_conflicts_run c7source c7target).source_done_ = [c7srcTask] ∧
    (check_for_conflicts_run c7source c7target).target_store_after = c7target ∧
    c7target.hasPid "p1" = false := by decide

/-- C8 (divergence witness): `check_for_conflicts` computes its counters and
lists, prints them, and returns Python's `None` — no report value is
returned to the caller. -/
theorem check_for_conflicts_returns_none :
    check_for_conflicts c7source c7target = none := by rfl

set_option maxRecDepth 1000000 in
/-- C9 counterexample: merging a source whose single task owns 501 new posts
into an empty target commits once after that task with 501 staged posts (and
once, emptily, at session close), and merging a 499-post task followed by a
2-post task commits only once, at session close, covering 501 posts; a
flush covering at most 500 staged posts fails at these inputs. -/
theorem merge_flush_over_500 :
    (merge_database "src" c9source emptyStore).commits = [501, 0] ∧
    ((merge_database "src" c9source emptyStore).commits.all
      (fun n => n ≤ 500)) = false ∧
    (merge_database "src" c9source2 emptyStore).commits = [501] ∧
    ((merge_database "src" c9source2 emptyStore).commits.all
      (fun n => n ≤ 500)) = false := by decide

theorem process_stats_new (st : Store) (stats : MergeStats)
    (tm : CollectionTask) (n : Nat) :
    (process_collection_task st stats tm n).2.1.new_posts_added =
      stats.new_posts_added := by
  unfold process_collection_task
  cases st.findTaskByName tm.task_name <;> rfl

theorem merge_task_step_new_added (path : String) (s : MergeSession)
    (tp : CollectionTask × List Post) :
    (merge_task_step path s tp).stats.new_posts_added =
      s.stats.new_posts_added +
        (filter_posts_with_existing_post_ids tp.2 s.store).length := by
  simp only [merge_task_step]
  split <;> rw [process_stats_new]

/-- C9 amended: a commit is issued after processing a task only when that
single task staged at least 500 new posts; it covers every post flushed
since the previous commit — at least 500, possibly more — and one final
commit at session close covers all remaining flushed posts, which can
itself reach 500 or more (posts of tasks below the threshold accumulate
until the close). Commit sizes sum to exactly the number of inserted
posts. -/
theorem merge_flush_batches (path : String) (source target : Store) :
    (merge_database path source target).commits.isEmpty = false ∧
    ((merge_database path source target).commits.dropLast.all
      (fun n => 500 ≤ n)) = true ∧
    (merge_database path source target).commits.sum =
      (merge_database path source target).stats.new_posts_added := by
  have inv : ∀ (tps : List (CollectionTask × List Post)) (s : MergeSession),
      s.commits.all (fun n => 500 ≤ n) = true →
      s.pending + s.commits.sum = s.stats.new_posts_added →
      ((tps.foldl (merge_task_step path) s).commits.all
        (fun n => 500 ≤ n)) = true ∧
      (tps.foldl (merge_task_step path) s).pending +
          (tps.foldl (merge_task_step path) s).commits.sum =
        (tps.foldl (merge_task_step path) s).stats.new_posts_added := by
    intro tps
    induction tps with
    | nil => intro s h1 h2; exact ⟨h1, h2⟩
    | cons tp tps ih =>
      intro s h1 h2
      rw [List.foldl_cons]
      have hnew := merge_task_step_new_added path s tp
      apply ih
      · simp only [merge_task_step]
        split
        · next hc =>
            rw [List.all_append, h1]
            simpa using Nat.le_trans hc (Nat.le_add_left _ _)
        · exact h1
      · rw [hnew]
        simp only [merge_task_step]
        split
        · rw [List.sum_append]
          simp
          omega
        · simp
          omega
  have hF := inv (get_tasks_with_posts source)
    { store := target, stats := {}, pending := 0, commits := [] }
    (by simp) (by simp)
  unfold merge_database
  refine ⟨by simp, ?_, ?_⟩
  · rw [List.dropLast_concat]
    exact hF.1
  · rw [List.sum_append]
    simp only [List.sum_cons, List.sum_nil]
    omega

theorem find?_range_least (m : Nat) :
    ∀ (p : Nat → Bool) (k : Nat), (List.range m).find? p = some k →
      p k = true ∧ ∀ j, j < k → p j = false := by
  induction m with
  | zero => intro p k h; simp [List.range_zero] at h
  | succ n ih =>
    intro p k h
    rw [List.range_succ_eq_map] at h
    by_cases h0 : p 0 = true
    · rw [List.find?_cons_of_pos _ h0] at h
      have hk : (0 : Nat) = k := by simpa using h
      subst hk
      exact ⟨h0, by omega⟩
    · rw [List.find?_cons_of_neg _ (by simpa using h0)] at h
      rw [List.find?_map _ _] at h
      obtain ⟨k', hk', hkk⟩ := Option.map_eq_some'.mp h
      subst hkk
      obtain ⟨hp, hlt⟩ := ih (p ∘ Nat.succ) k' hk'
      refine ⟨hp, ?_⟩
      intro j hj
      cases j with
      | zero => exact Bool.eq_false_iff.mpr h0
      | succ j' => exact hlt j' (by omega)

theorem exists_unused_index (used : List Int) :
    ∃ k : Nat, k < used.dedup.length + 1 ∧ used.contains (k : Int) = false := by
  by_contra hcon
  push_neg at hcon
  have hmem : ∀ k : Nat, k < used.dedup.length + 1 → (k : Int) ∈ used.toFinset := by
    intro k hk
    rw [List.mem_toFinset, ← List.elem_iff]
    have hne := hcon k hk
    rcases hb : used.contains (k : Int) with _ | _
    · exact absurd hb hne
    · exact hb
  have hcard : (Finset.range (used.dedup.length + 1)).card ≤ used.toFinset.card :=
    Finset.card_le_card_of_injOn (fun k => (k : Int))
      (fun k hk => hmem k (Finset.mem_range.mp hk))
      (fun a _ b _ hab => by simp only at hab; exact_mod_cast hab)
  rw [Finset.card_range, List.card_toFinset] at hcard
  omega

theorem find_next_index_spec (used : List Int) :
    ∃ k : Nat, find_next_index used = some k ∧
      used.contains (k : Int) = false ∧
      ∀ j : Nat, j < k → used.contains (j : Int) = true := by
  obtain ⟨k0, hk0, hnc⟩ := exists_unused_index used
  have hsome : (find_next_index used).isSome := by
    unfold find_next_index
    rw [List.find?_isSome]
    exact ⟨k0, List.mem_range.mpr hk0, by rw [hnc]; rfl⟩
  obtain ⟨k, hk⟩ := Option.isSome_iff_exists.mp hsome
  have hk2 := hk
  unfold find_next_index at hk2
  obtain ⟨hp, hlt⟩ := find?_range_least _ _ _ hk2
  refine ⟨k, hk, ?_, ?_⟩
  · simpa using hp
  · intro j hj
    have hj2 := hlt j hj
    simpa using hj2

theorem reconcile_candidate_fni (dbNames existing_names : List String)
    (st : ReconcileState) (t : ClientTaskConfig) (used : List Int) (k : Nat)
    (hc : existing_names.contains t.task_name = true)
    (ho : t.overwrite = false) (hf : t.force_new_index = true)
    (hfetch : (match cacheGet st.cache t.groupPrefix with
               | none => group_existing_indices dbNames t.groupPrefix
               | some l =>
                   if l.isEmpty then
                     group_existing_indices dbNames t.groupPrefix
                   else some l) = some used)
    (hfind : find_next_index used = some k) :
    reconcile_candidate dbNames existing_names st t =
      some { st with
             cache := cacheSet st.cache t.groupPrefix (used ++ [(k : Int)]),
             tasks := st.tasks ++
               [{ t with task_name := t.groupPrefix ++ "_" ++ toString k }],
             new_tasks_names := st.new_tasks_names ++
               [t.groupPrefix ++ "_" ++ toString k] } := by
  simp only [reconcile_candidate, hc, ho, hf, hfetch, hfind]
  simp

/-- C4: two colliding `force_new_index` candidates of the same group in one
batch are renamed to `prefix_k1` and `prefix_k2`, where `k1` is the smallest
non-negative integer not among the trailing integers parsed from the
existing names matching the group prefix, and `k2` is the smallest
non-negative integer not among those integers and not `k1` (indices assigned
earlier in the batch count as used); both renamed tasks are inserted. -/
theorem group_index_gap_filling (db : Store) (t1 t2 : ClientTaskConfig)
    (used : List Int)
    (h1n : (db.tasks.map (fun t => t.task_name)).contains t1.task_name = true)
    (h2n : (db.tasks.map (fun t => t.task_name)).contains t2.task_name = true)
    (h1o : t1.overwrite = false) (h1f : t1.force_new_index = true)
    (h2o : t2.overwrite = false) (h2f : t2.force_new_index = true)
    (hgp : t2.groupPrefix = t1.groupPrefix)
    (hq : group_existing_indices (db.tasks.map (fun t => t.task_name))
      t1.groupPrefix = some used) :
    ∃ (k1 k2 : Nat) (db2 : Store),
      add_db_collection_tasks db [t1, t2] =
        some (db2, [t1.groupPrefix ++ "_" ++ toString k1,
                    t1.groupPrefix ++ "_" ++ toString k2]) ∧
      used.contains (k1 : Int) = false ∧
      (∀ j : Nat, j < k1 → used.contains (j : Int) = true) ∧
      k2 ≠ k1 ∧ used.contains (k2 : Int) = false ∧
      (∀ j : Nat, j < k2 → used.contains (j : Int) = true ∨ j = k1) ∧
      db2.tasks.map (fun t => t.task_name) =
        db.tasks.map (fun t => t.task_name) ++
          [t1.groupPrefix ++ "_" ++ toString k1,
           t1.groupPrefix ++ "_" ++ toString k2] := by
  obtain ⟨k1, hk1, hk1nc, hk1lt⟩ := find_next_index_spec used
  obtain ⟨k2, hk2, hk2nc, hk2lt⟩ := find_next_index_spec (used ++ [(k1 : Int)])
  have he1 : (check_task_names_exists db
      [t1.task_name, t2.task_name]).contains t1.task_name = true := by
    rw [List.elem_iff]
    unfold check_task_names_exists
    rw [List.mem_filter]
    exact ⟨List.elem_iff.mp h1n, by simp⟩
  have he2 : (check_task_names_exists db
      [t1.task_name, t2.task_name]).contains t2.task_name = true := by
    rw [List.elem_iff]
    unfold check_task_names_exists
    rw [List.mem_filter]
    exact ⟨List.elem_iff.mp h2n, by simp⟩
  have hfetch2 : (match cacheGet
        (cacheSet [] t1.groupPrefix (used ++ [(k1 : Int)])) t2.groupPrefix with
      | none => group_existing_indices
          (List.map (fun t => t.task_name) db.tasks) t2.groupPrefix
      | some l =>
          if l.isEmpty then
            group_existing_indices
              (List.map (fun t => t.task_name) db.tasks) t2.groupPrefix
          else some l) = some (used ++ [(k1 : Int)]) := by
    rw [hgp]
    have hcg : cacheGet (cacheSet [] t1.groupPrefix (used ++ [(k1 : Int)]))
        t1.groupPrefix = some (used ++ [(k1 : Int)]) := by
      simp [cacheGet, cacheSet]
    rw [hcg]
    simp
  unfold add_db_collection_tasks
  simp only [List.map_cons, List.map_nil, List.foldlM_cons, List.foldlM_nil]
  rw [reconcile_candidate_fni _ _ _ _ used k1 he1 h1o h1f hq hk1]
  dsimp only
  simp only [Option.bind_eq_bind, Option.some_bind]
  rw [reconcile_candidate_fni _ _ _ _ (used ++ [(k1 : Int)]) k2 he2 h2o h2f
    hfetch2 hk2]
  dsimp only
  simp only [Option.some_bind]
  rw [hgp]
  have hinit : (List.filter
      (fun t => decide ¬((check_task_names_exists db
        [t1.task_name, t2.task_name]).contains t.task_name = true))
      [t1, t2]) = [] := by
    simp [List.filter, List.elem_iff.mp he1, List.elem_iff.mp he2]
  rw [hinit]
  simp only [List.isEmpty_nil, if_true, List.nil_append, List.map_nil,
    List.singleton_append, List.foldl_cons, List.foldl_nil]
  refine ⟨k1, k2, _, rfl, hk1nc, hk1lt, ?_, ?_, ?_, ?_⟩
  · intro hkk
    subst hkk
    have hcc : (used ++ [(k2 : Int)]).contains (k2 : Int) = true :=
      List.elem_iff.mpr (by simp)
    rw [hcc] at hk2nc
    simp at hk2nc
  · rcases hb : used.contains (k2 : Int) with _ | _
    · rfl
    · have hcc : (used ++ [(k1 : Int)]).contains (k2 : Int) = true :=
        List.elem_iff.mpr (List.mem_append.mpr (Or.inl (List.elem_iff.mp hb)))
      rw [hcc] at hk2nc
      simp at hk2nc
  · intro j hj
    have hc := hk2lt j hj
    rcases List.mem_append.mp (List.elem_iff.mp hc) with hm | hm
    · exact Or.inl (List.elem_iff.mpr hm)
    · right
      have hji : (j : Int) = (k1 : Int) := by simpa using hm
      exact_mod_cast hji
  · dsimp only
    simp [List.map_append]
/-- Witness for C4: with existing names `grp_0` and `grp_2` (used indices
0 and 2) and two colliding forced-index candidates, the reconciler assigns
`grp_1` (the gap) to the first and `grp_3` to the second — not `grp_3` to
the first. -/
theorem group_index_gap_filling_witness :
    group_existing_indices (c4db.tasks.map (fun t => t.task_name))
      c4cand.groupPrefix = some [0, 2] ∧
    (∃ (k1 k2 : Nat) (db2 : Store),
      add_db_collection_tasks c4db [c4cand, c4cand] =
        some (db2, [c4cand.groupPrefix ++ "_" ++ toString k1,
                    c4cand.groupPrefix ++ "_" ++ toString k2]) ∧
      ([0, 2] : List Int).contains (k1 : Int) = false ∧
      (∀ j : Nat, j < k1 → ([0, 2] : List Int).contains (j : Int) = true) ∧
      k2 ≠ k1 ∧ ([0, 2] : List Int).contains (k2 : Int) = false ∧
      (∀ j : Nat, j < k2 →
        ([0, 2] : List Int).contains (j : Int) = true ∨ j = k1) ∧
      db2.tasks.map (fun t => t.task_name) =
        c4db.tasks.map (fun t => t.task_name) ++
          [c4cand.groupPrefix ++ "_" ++ toString k1,
           c4cand.groupPrefix ++ "_" ++ toString k2]) ∧
    (add_db_collection_tasks c4db [c4cand, c4cand]).map (fun r => r.2) =
      some ["grp_1", "grp_3"] :=
  ⟨by decide,
   group_index_gap_filling c4db c4cand c4cand [0, 2] (by decide) (by decide)
     rfl rfl rfl rfl rfl (by decide),
   by decide⟩

theorem stamp_post_platform_id (path : String) (tid : Nat) (p : Post) :
    (stamp_post path tid p).platform_id = p.platform_id := by
  cases h : p.metadata_content <;> simp [stamp_post, h]

theorem hasPid_eq_of_posts_eq (s1 s2 : Store) (h : s1.posts = s2.posts)
    (x : String) : s1.hasPid x = s2.hasPid x := by
  unfold Store.hasPid
  rw [h]

theorem hasPid_insertPost (s : Store) (p : Post) (x : String) :
    (s.insertPost p).hasPid x = (s.hasPid x || decide (p.platform_id = x)) := by
  unfold Store.insertPost Store.hasPid
  simp [List.any_append]

theorem hasPid_foldl_insert_mono (f : Post → Post) (l : List Post) (st : Store)
    (x : String) (h : st.hasPid x = true) :
    (l.foldl (fun s p => s.insertPost (f p)) st).hasPid x = true := by
  induction l generalizing st with
  | nil => exact h
  | cons a l ih =>
    rw [List.foldl_cons]
    exact ih _ (by rw [hasPid_insertPost]; simp [h])

theorem hasPid_foldl_insert_mem (f : Post → Post)
    (hf : ∀ p, (f p).platform_id = p.platform_id)
    (l : List Post) (st : Store) (p : Post) (hp : p ∈ l) :
    (l.foldl (fun s q => s.insertPost (f q)) st).hasPid p.platform_id = true := by
  induction l generalizing st with
  | nil => simp at hp
  | cons a l ih =>
    rw [List.foldl_cons]
    rcases List.mem_cons.mp hp with hpa | hp2
    · apply hasPid_foldl_insert_mono
      rw [hasPid_insertPost, hf]
      simp [hpa]
    · exact ih _ hp2

theorem process_posts (st : Store) (stats : MergeStats) (tm : CollectionTask)
    (n : Nat) : (process_collection_task st stats tm n).1.posts = st.posts := by
  unfold process_collection_task
  cases st.findTaskByName tm.task_name <;> rfl


theorem merge_task_step_hasPid_mono (path : String) (s : MergeSession)
    (tp : CollectionTask × List Post) (x : String)
    (h : s.store.hasPid x = true) :
    (merge_task_step path s tp).store.hasPid x = true := by
  simp only [merge_task_step]
  split
  all_goals
    apply hasPid_foldl_insert_mono
    rw [hasPid_eq_of_posts_eq _ s.store (process_posts _ _ _ _) x]
    exact h

theorem merge_task_step_covers (path : String) (s : MergeSession)
    (tp : CollectionTask × List Post) (p : Post) (hp : p ∈ tp.2) :
    (merge_task_step path s tp).store.hasPid p.platform_id = true := by
  rcases hb : s.store.hasPid p.platform_id with _ | _
  · have hpf : p ∈ filter_posts_with_existing_post_ids tp.2 s.store :=
      (mem_filter_posts tp.2 s.store p).mpr ⟨hp, hb⟩
    simp only [merge_task_step]
    split
    all_goals
      exact hasPid_foldl_insert_mem _
        (fun q => stamp_post_platform_id path _ q) _ _ p hpf
  · exact merge_task_step_hasPid_mono path s tp _ hb

theorem merge_task_step_noop (path : String) (s : MergeSession)
    (tp : CollectionTask × List Post)
    (h : ∀ p ∈ tp.2, s.store.hasPid p.platform_id = true) :
    (merge_task_step path s tp).store.posts = s.store.posts ∧
    (merge_task_step path s tp).stats.new_posts_added =
      s.stats.new_posts_added := by
  have hfe : filter_posts_with_existing_post_ids tp.2 s.store = [] := by
    rw [filter_posts_eq_filter]
    rw [List.filter_eq_nil_iff]
    intro a ha
    simp [h a ha]
  simp only [merge_task_step, hfe]
  split
  all_goals
    refine ⟨?_, ?_⟩
    · rw [List.foldl_nil]
      exact process_posts _ _ _ _
    · rw [process_stats_new]
      simp

theorem foldl_step_hasPid_mono (path : String)
    (tps : List (CollectionTask × List Post)) (s : MergeSession) (x : String)
    (h : s.store.hasPid x = true) :
    ((tps.foldl (merge_task_step path) s).store.hasPid x) = true := by
  induction tps generalizing s with
  | nil => exact h
  | cons tp tps ih =>
    rw [List.foldl_cons]
    exact ih _ (merge_task_step_hasPid_mono path s tp x h)

theorem foldl_step_covers (path : String)
    (tps : List (CollectionTask × List Post)) (s : MergeSession) :
    ∀ tp ∈ tps, ∀ p ∈ tp.2,
      ((tps.foldl (merge_task_step path) s).store.hasPid p.platform_id) =
        true := by
  induction tps generalizing s with
  | nil => intro tp htp; simp at htp
  | cons tp0 tps ih =>
    intro tp htp p hp
    rw [List.foldl_cons]
    rcases List.mem_cons.mp htp with htp0 | h2
    · subst htp0
      exact foldl_step_hasPid_mono path tps _ _
        (merge_task_step_covers path s tp p hp)
    · exact ih _ tp h2 p hp

theorem foldl_step_noop (path : String)
    (tps : List (CollectionTask × List Post)) (s : MergeSession)
    (h : ∀ tp ∈ tps, ∀ p ∈ tp.2, s.store.hasPid p.platform_id = true) :
    (tps.foldl (merge_task_step path) s).store.posts = s.store.posts ∧
    (tps.foldl (merge_task_step path) s).stats.new_posts_added =
      s.stats.new_posts_added := by
  induction tps generalizing s with
  | nil => exact ⟨rfl, rfl⟩
  | cons tp tps ih =>
    rw [List.foldl_cons]
    have hstep := merge_task_step_noop path s tp
      (h tp (List.mem_cons_self tp tps))
    have hnext : ∀ tp2 ∈ tps, ∀ p ∈ tp2.2,
        (merge_task_step path s tp).store.hasPid p.platform_id = true := by
      intro tp2 h2 p hp
      rw [hasPid_eq_of_posts_eq _ s.store hstep.1]
      exact h tp2 (List.mem_cons_of_mem tp h2) p hp
    obtain ⟨h1, h2⟩ := ih _ hnext
    exact ⟨h1.trans hstep.1, h2.trans hstep.2⟩

/-- C1: merging the same source into a target twice leaves the target with
the same posts (hence the same post count) as merging it once, and the
second run inserts no post: every source platform id is already present and
the deduplicator filters it out. -/
theorem merge_idempotent (path : String) (source target : Store) :
    (merge_database path source
        (merge_database path source target).store).store.posts =
      (merge_database path source target).store.posts ∧
    (merge_database path source
        (merge_database path source target).store).store.posts.length =
      (merge_database path source target).store.posts.length ∧
    (merge_database path source
        (merge_database path source target).store).stats.new_posts_added =
      0 := by
  have hcov := foldl_step_covers path (get_tasks_with_posts source)
    { store := target, stats := {}, pending := 0, commits := [] }
  have hnoop := foldl_step_noop path (get_tasks_with_posts source)
    { store := (merge_database path source target).store, stats := {},
      pending := 0, commits := [] }
    (by
      intro tp htp p hp
      exact hcov tp htp p hp)
  exact ⟨hnoop.1, congrArg List.length hnoop.1, hnoop.2⟩
